import Mathlib

/-!
Shallow embedding of `src/xkcd_crawler.py` (class `XKCDCrawler`).

The network and the operating system are modelled by an explicit oracle
(`Env`): it fixes, for each comic number, the outcome of the info request,
for each URL the outcome of the streaming image download (including the
possibility that the stream raises after a number of chunks were already
written), and whether the unguarded metadata write raises.  The filesystem
is an association list from names to file contents, threaded through the
functions exactly where the Python code writes files.  Observable actions
(HTTP requests, `time.sleep`, `print` lines) are collected in an event
trace.  Comic numbers are modelled as naturals (the crawler only ever
produces them from `range(start, end + 1)` over nonnegative CLI inputs);
`max_comics` keeps the full `int` type because Python truthiness of a
negative cap is observable.  The banner and end-of-run summary prints of
`crawl_range` (which only render configuration values and counters) are
not traced; all per-item prints are.
-/

/-- Characters allowed in a URL scheme, mirroring `urllib.parse.scheme_chars`
(letters, digits, and `+-.`). -/
def schemeChar (c : Char) : Bool :=
  c.isAlpha || c.isDigit || c == '+' || c == '-' || c == '.'

/-- `urlsplit` scheme removal: if the first `:` is at a positive index and all
characters before it are scheme characters, everything up to and including the
colon is the scheme and is dropped. -/
def stripScheme (u : List Char) : List Char :=
  match u.findIdx? (fun c => c == ':') with
  | some i => if 0 < i && (u.take i).all schemeChar then u.drop (i + 1) else u
  | none => u

/-- `urlsplit` netloc removal: after `//`, the netloc extends to the first of
`/`, `?`, `#`; the rest (delimiter included) is kept. -/
def stripNetloc : List Char → List Char
  | '/' :: '/' :: rest => rest.dropWhile (fun c => !(c == '/' || c == '?' || c == '#'))
  | u => u

/-- `urlparse` parameter removal (`_splitparams`): the first `;` at or after the
last `/` (or anywhere, if there is no `/`) cuts off the params. -/
def dropParams (p : List Char) : List Char :=
  if p.contains '/' then
    let seg := (p.reverse.takeWhile (fun c => !(c == '/'))).reverse
    p.take (p.length - seg.length) ++ seg.takeWhile (fun c => !(c == ';'))
  else
    p.takeWhile (fun c => !(c == ';'))

/-- The `path` component of `urllib.parse.urlparse`: unsafe bytes are removed,
then the scheme, the netloc, the fragment (first `#`), the query (first `?`)
and the params are split off. -/
def urlparsePath (url : String) : List Char :=
  let u0 := url.data.filter (fun c => !(c == '\t' || c == '\r' || c == '\n'))
  let u1 := stripScheme u0
  let u2 := stripNetloc u1
  let u3 := u2.takeWhile (fun c => !(c == '#'))
  let u4 := u3.takeWhile (fun c => !(c == '?'))
  dropParams u4

/-- Working right to left from just after a candidate extension dot: is there a
character other than `.` before the segment ends (at `/` or the string start)?
This is `posixpath.splitext`'s guard that a name made only of leading dots has
no extension. -/
def segNonDot : List Char → Bool
  | [] => false
  | c :: rest => if c == '/' then false else if c == '.' then segNonDot rest else true

/-- Right-to-left scan implementing `posixpath.splitext`: the extension starts
at the last `.` that lies after the last `/` and has some non-dot character
before it in its segment.  `acc` holds the characters already passed, in
original order; each was checked to be neither `/` nor `.`. -/
def extScan : List Char → List Char → List Char
  | [], _ => []
  | c :: rest, acc =>
    if c == '/' then []
    else if c == '.' then (if segNonDot rest then '.' :: acc else [])
    else extScan rest (c :: acc)

/-- `os.path.splitext(p)[1]` for POSIX paths. -/
def splitextExt (p : List Char) : List Char :=
  extScan p.reverse []

/-- Decimal digits, most significant first, with a structural fuel argument
(any `fuel > n` gives the true digit string). -/
def decCharsAux : Nat → Nat → List Char
  | 0, _ => []
  | fuel + 1, n =>
    if n < 10 then [Nat.digitChar n]
    else decCharsAux fuel (n / 10) ++ [Nat.digitChar (n % 10)]

/-- Decimal digits of a natural number, most significant first, mirroring the
digit string `"%d"` produces. -/
def decChars (n : Nat) : List Char :=
  decCharsAux (n + 1) n

/-- Python `f"{n:04d}"` for a natural `n`: the decimal digits left-padded with
`'0'` to at least four characters. -/
def pad4 (n : Nat) : List Char :=
  List.replicate (4 - (decChars n).length) '0' ++ decChars n

/-- `title.replace(' ', '_')`. -/
def replaceSpace (l : List Char) : List Char :=
  l.map (fun c => if c == ' ' then '_' else c)

/-- `.replace('/', '_')` applied second. -/
def replaceSlash (l : List Char) : List Char :=
  l.map (fun c => if c == '/' then '_' else c)

/-- `os.path.splitext(urlparse(image_url).path)[1] or '.png'`. -/
def fileExtensionOf (image_url : String) : List Char :=
  let e := splitextExt (urlparsePath image_url)
  if e.isEmpty then ".png".data else e

/-- `f"{comic_num:04d}_{title.replace(' ', '_').replace('/', '_')}{file_extension}"`
(xkcd_crawler.py line 131). -/
def mkFilename (comic_num : Nat) (title : String) (image_url : String) : String :=
  ⟨pad4 comic_num ++ '_' :: replaceSlash (replaceSpace title.data) ++ fileExtensionOf image_url⟩

/-- `f"{comic_num:04d}_metadata.json"` (xkcd_crawler.py line 161). -/
def metadataFilename (comic_num : Nat) : String :=
  ⟨pad4 comic_num ++ "_metadata.json".data⟩

/-- The fields of the per-comic JSON payload that `crawl_comic` consumes
(`img`, `safe_title`, `alt`); `none` models an absent key, so that `dict.get`
defaults are distinguishable from present values. -/
structure ComicInfoJson where
  img : Option String
  safe_title : Option String
  alt : Option String
deriving DecidableEq

/-- Outcome of `session.get(f"{base_url}/{comic_num}/info.0.json")` followed by
`raise_for_status()` and `.json()`, as observed by `get_comic_info`'s handlers:
a parsed body, a 404 `HTTPError`, another `HTTPError`, or any other
exception (connection error, timeout, JSON parse error, ...). -/
inductive InfoOutcome where
  | ok (d : ComicInfoJson)
  | http404
  | httpError (msg : String)
  | exn (msg : String)
deriving DecidableEq

/-- Outcome of the streaming image GET in `download_image`: a failure before
any byte is written (`raise_for_status` or the connection itself), or a chunk
stream; `failAfter = some (k, msg)` means iteration raises with message `msg`
after the first `k` chunks were already written to the open file. -/
inductive DlOutcome where
  | httpError (msg : String)
  | stream (chunks : List (List Nat)) (failAfter : Option (Nat × String))
deriving DecidableEq

/-- The oracle fixing every effect the crawler performs: the info response per
comic number, the latest-comic response, the image download per URL, and
whether the unguarded metadata `open`/`json.dump` raises for a given comic
number (`some msg` = it raises with message `msg`). -/
structure Env where
  info : Nat → InfoOutcome
  latest : Except String Nat
  download : String → DlOutcome
  metaWriteErr : Nat → Option String

/-- The metadata record written by `crawl_comic` (lines 153-159). -/
structure Metadata where
  comic_num : Nat
  title : String
  alt_text : String
  image_url : String
  filename : String
deriving DecidableEq

/-- A file in the output directory: image bytes or a metadata record. -/
inductive FileContent where
  | image (bytes : List Nat)
  | metadata (m : Metadata)
deriving DecidableEq

/-- The output directory: an association list from filename to contents. -/
abbrev Fs := List (String × FileContent)

def fsGet : Fs → String → Option FileContent
  | [], _ => none
  | (k, v) :: t, name => if k = name then some v else fsGet t name

/-- `open(path, mode)` + full write: creates the file or truncates an existing
one, then leaves the given contents. -/
def fsSet : Fs → String → FileContent → Fs
  | [], name, v => [(name, v)]
  | (k, w) :: t, name, v => if k = name then (k, v) :: t else (k, w) :: fsSet t name v

/-- `(self.output_dir / filename).exists()`. -/
def fsExists (fs : Fs) (name : String) : Bool :=
  (fsGet fs name).isSome

/-- Observable actions: the three kinds of HTTP request, the rate-limit sleep,
and a printed line. -/
inductive Event where
  | latestReq
  | infoReq (n : Nat)
  | imgReq (url : String)
  | sleep
  | log (msg : String)
deriving DecidableEq

/-- The comic numbers for which an info request was issued, in order. -/
def infoReqs (ev : List Event) : List Nat :=
  ev.filterMap (fun e => match e with | .infoReq n => some n | _ => none)

/-- `get_latest_comic_number` (lines 41-50): returns the latest number, or
`None` after printing the error. -/
def get_latest_comic_number (env : Env) : List Event × Option Nat :=
  match env.latest with
  | .ok n => ([.latestReq], some n)
  | .error e => ([.latestReq, .log ("Error getting latest comic number: " ++ e)], none)

/-- `get_comic_info` (lines 52-76): every error path prints and returns
`None`; a 404 prints a dedicated line. -/
def get_comic_info (env : Env) (comic_num : Nat) : List Event × Option ComicInfoJson :=
  match env.info comic_num with
  | .ok d => ([.infoReq comic_num], some d)
  | .http404 =>
    ([.infoReq comic_num, .log ("Comic " ++ toString comic_num ++ " not found (404)")], none)
  | .httpError e =>
    ([.infoReq comic_num, .log ("HTTP error for comic " ++ toString comic_num ++ ": " ++ e)], none)
  | .exn e =>
    ([.infoReq comic_num, .log ("Error getting comic " ++ toString comic_num ++ " info: " ++ e)], none)

/-- `download_image` (lines 78-101).  The GET happens first; on an HTTP/
transport failure the file is never opened.  Otherwise the file is opened
(created or truncated) and the chunks are written one at a time, so a stream
that raises after `k` chunks leaves the file holding exactly those `k` chunks;
the exception is caught, printed, and turned into `False`. -/
def download_image (env : Env) (fs : Fs) (image_url filename : String) :
    Fs × List Event × Bool :=
  match env.download image_url with
  | .httpError e =>
    (fs, [.imgReq image_url, .log ("Error downloading " ++ image_url ++ ": " ++ e)], false)
  | .stream chunks none =>
    (fsSet fs filename (.image chunks.flatten), [.imgReq image_url], true)
  | .stream chunks (some (k, e)) =>
    (fsSet fs filename (.image (chunks.take k).flatten),
     [.imgReq image_url, .log ("Error downloading " ++ image_url ++ ": " ++ e)], false)

/-- The result dictionary of `crawl_comic`: `{"success": True, ...}` with
filename/title/alt_text/skipped, or `{"success": False, ..., "error": msg}`. -/
inductive CrawlResult where
  | success (comic_num : Nat) (filename title alt_text : String) (skipped : Bool)
  | failure (comic_num : Nat) (error : String)
deriving DecidableEq

/-- `crawl_comic` (lines 103-174).  The returned `Except` is `.error msg` when
an exception escapes the function: the only statement not guarded by a
`try`/`except` (directly or inside a callee) is the metadata `open`/`json.dump`
at lines 161-163, modelled by `env.metaWriteErr`.  Note the `"  Downloaded:"`
print (line 150) precedes the metadata write. -/
def crawl_comic (env : Env) (fs : Fs) (comic_num : Nat) :
    Fs × List Event × Except String CrawlResult :=
  let ev0 : List Event := [.log ("Crawling comic " ++ toString comic_num ++ "...")]
  match get_comic_info env comic_num with
  | (ev1, none) =>
    (fs, ev0 ++ ev1, .ok (.failure comic_num "Could not fetch comic info"))
  | (ev1, some d) =>
    let title := d.safe_title.getD ("comic_" ++ toString comic_num)
    let alt_text := d.alt.getD ""
    match d.img with
    | none => (fs, ev0 ++ ev1, .ok (.failure comic_num "No image URL found"))
    | some image_url =>
      if image_url = "" then
        (fs, ev0 ++ ev1, .ok (.failure comic_num "No image URL found"))
      else
        let filename := mkFilename comic_num title image_url
        if fsExists fs filename then
          (fs, ev0 ++ ev1 ++ [.log ("  Image already exists: " ++ filename)],
           .ok (.success comic_num filename title alt_text true))
        else
          match download_image env fs image_url filename with
          | (fs2, ev2, true) =>
            let ev3 : List Event := [.log ("  Downloaded: " ++ filename)]
            match env.metaWriteErr comic_num with
            | some e => (fs2, ev0 ++ ev1 ++ ev2 ++ ev3, .error e)
            | none =>
              let md : Metadata := ⟨comic_num, title, alt_text, image_url, filename⟩
              (fsSet fs2 (metadataFilename comic_num) (.metadata md),
               ev0 ++ ev1 ++ ev2 ++ ev3,
               .ok (.success comic_num filename title alt_text false))
          | (fs2, ev2, false) =>
            (fs2, ev0 ++ ev1 ++ ev2, .ok (.failure comic_num "Failed to download image"))

/-- The three counters printed at the end of `crawl_range`. -/
structure Summary where
  successful : Nat
  skipped : Nat
  failed : Nat
deriving DecidableEq

/-- `if max_comics and successful >= max_comics` (line 202): Python truthiness
makes `None` and `0` skip the check; any other integer (negative included) is
compared against the counter. -/
def capHit (max_comics : Option Int) (successful : Nat) : Bool :=
  match max_comics with
  | none => false
  | some m => !(m == 0) && (m ≤ (successful : Int))

/-- Counter update of lines 208-214. -/
def bumpCounts (r : CrawlResult) (successful skipped failed : Nat) : Nat × Nat × Nat :=
  match r with
  | .success _ _ _ _ true => (successful, skipped + 1, failed)
  | .success _ _ _ _ false => (successful + 1, skipped, failed)
  | .failure _ _ => (successful, skipped, failed + 1)

/-- The `"  Failed: ..."` print of line 215, emitted only for a failure. -/
def failReport (r : CrawlResult) : List Event :=
  match r with
  | .failure _ err => [.log ("  Failed: " ++ err)]
  | _ => []

/-- The `for comic_num in range(start, end + 1)` body of `crawl_range`
(lines 201-219), recursing on the number of remaining iterations.  An
exception escaping `crawl_comic` propagates and aborts the loop. -/
def crawl_loop (env : Env) (fs : Fs) (comic_num count endNum : Nat)
    (max_comics : Option Int) (successful skipped failed : Nat) :
    Fs × List Event × Except String Summary :=
  match count with
  | 0 => (fs, [], .ok ⟨successful, skipped, failed⟩)
  | count' + 1 =>
    if capHit max_comics successful then
      (fs,
       [.log ("Reached maximum of " ++ toString (max_comics.getD 0) ++ " comics downloaded.")],
       .ok ⟨successful, skipped, failed⟩)
    else
      match crawl_comic env fs comic_num with
      | (fs2, ev, .error e) => (fs2, ev, .error e)
      | (fs2, ev, .ok r) =>
        let c := bumpCounts r successful skipped failed
        let evs : List Event := if comic_num < endNum then [.sleep] else []
        match crawl_loop env fs2 (comic_num + 1) count' endNum max_comics c.1 c.2.1 c.2.2 with
        | (fs3, ev3, res) => (fs3, ev ++ failReport r ++ evs ++ ev3, res)

def liftSummary : Except String Summary → Except String (Option Summary)
  | .error e => .error e
  | .ok s => .ok (some s)

/-- `crawl_range` (lines 176-224).  When `end` is `None` the latest number is
looked up first; if that fails the function returns early (`.ok none`) without
processing any item.  The banner and summary prints are not traced. -/
def crawl_range (env : Env) (fs : Fs) (start : Nat) (endOpt : Option Nat)
    (max_comics : Option Int) : Fs × List Event × Except String (Option Summary) :=
  match endOpt with
  | none =>
    match get_latest_comic_number env with
    | (ev, none) =>
      (fs, ev ++ [.log "Could not determine latest comic number"], .ok none)
    | (ev, some latest) =>
      match crawl_loop env fs start (latest + 1 - start) latest max_comics 0 0 0 with
      | (fs2, ev2, res) => (fs2, ev ++ ev2, liftSummary res)
  | some endNum =>
    match crawl_loop env fs start (endNum + 1 - start) endNum max_comics 0 0 0 with
    | (fs2, ev2, res) => (fs2, ev2, liftSummary res)

deriving instance DecidableEq for Except

/-- The numeric value of a digit string, as read back with the usual left fold. -/
def strVal (l : List Char) : Nat :=
  l.foldl (fun a c => 10 * a + (c.toNat - 48)) 0

/-- The `"  Failed: ..."` report of a finished item, or nothing if the item
raised. -/
def failReportE : Except String CrawlResult → List Event
  | .ok r => failReport r
  | .error _ => []

/-- The summary counts a single item contributes. -/
def countsOf : CrawlResult → Summary
  | .success _ _ _ _ true => ⟨0, 1, 0⟩
  | .success _ _ _ _ false => ⟨1, 0, 0⟩
  | .failure _ _ => ⟨0, 0, 1⟩

/-- A single item's outcome, shaped like a range-crawl outcome. -/
def liftItem : Except String CrawlResult → Except String (Option Summary)
  | .error e => .error e
  | .ok r => .ok (some (countsOf r))

/-! ### Concrete oracle environments used by witnesses and counterexamples -/

/-- Every item succeeds: well-formed info, a one-chunk image, no write errors. -/
def envOk : Env :=
  { info := fun n => .ok ⟨some ("https://x/img/" ++ toString n ++ ".png"), some "T", some "A"⟩
    latest := .ok 100
    download := fun _ => .stream [[7]] none
    metaWriteErr := fun _ => none }

/-- Like `envOk`, except the metadata write for comic 1 raises (disk full). -/
def envMetaFail : Env :=
  { info := fun n => .ok ⟨some ("https://x/img/" ++ toString n ++ ".png"), some "T", some "A"⟩
    latest := .ok 100
    download := fun _ => .stream [[7]] none
    metaWriteErr := fun n => if n == 1 then some "No space left on device" else none }

/-- The image stream raises after the first of two chunks was written. -/
def envPartial : Env :=
  { info := fun _ => .ok ⟨some "https://x/a.png", some "T", some "A"⟩
    latest := .ok 100
    download := fun _ => .stream [[1, 2], [3, 4]] (some (1, "IncompleteRead"))
    metaWriteErr := fun _ => none }

/-- Every info request returns HTTP 404. -/
def env404 : Env :=
  { info := fun _ => .http404
    latest := .ok 100
    download := fun _ => .httpError "unused"
    metaWriteErr := fun _ => none }

/-- Every info request raises a timeout. -/
def envTimeout : Env :=
  { info := fun _ => .exn "Connection timed out"
    latest := .ok 100
    download := fun _ => .httpError "unused"
    metaWriteErr := fun _ => none }

/-- A filesystem already holding the images for comics 1-5 under the names
`envOk` derives, so that every crawl of those numbers is a skip. -/
def fsPre : Fs :=
  (List.range' 1 5).map
    (fun n => (mkFilename n "T" ("https://x/img/" ++ toString n ++ ".png"), FileContent.image [7]))

/-! ### Sanity examples for the filename derivation -/

example : mkFilename 42 "Foo Bar" "https://x/img/foo.jpg" = "0042_Foo_Bar.jpg" := by decide
example : mkFilename 42 "Foo" "https://x/img/foo" = "0042_Foo.png" := by decide
example : mkFilename 1 "a/b c" "https://x/i.gif?q=1#f" = "0001_a_b_c.gif" := by decide
example : metadataFilename 42 = "0042_metadata.json" := by decide


/-! ### Lemmas about the decimal padding -/

theorem digitChar_isDigit : ∀ m, m < 10 → (Nat.digitChar m).isDigit := by decide

theorem digitChar_val : ∀ m, m < 10 → (Nat.digitChar m).toNat - 48 = m := by decide

theorem decCharsAux_digits :
    ∀ (fuel n : Nat), n < fuel → ∀ c ∈ decCharsAux fuel n, c.isDigit := by
  intro fuel
  induction fuel with
  | zero => intro n hn; omega
  | succ fuel ih =>
    intro n hn c hc
    rw [decCharsAux] at hc
    by_cases h10 : n < 10
    · simp only [if_pos h10, List.mem_singleton] at hc
      exact hc ▸ digitChar_isDigit n h10
    · simp only [if_neg h10, List.mem_append, List.mem_singleton] at hc
      rcases hc with hc | hc
      · exact ih (n / 10) (by omega) c hc
      · exact hc ▸ digitChar_isDigit (n % 10) (Nat.mod_lt n (by omega))

theorem decCharsAux_foldl :
    ∀ (fuel n a : Nat), n < fuel →
      List.foldl (fun a c => 10 * a + (c.toNat - 48)) a (decCharsAux fuel n) =
        a * 10 ^ (decCharsAux fuel n).length + n := by
  intro fuel
  induction fuel with
  | zero => intro n a hn; omega
  | succ fuel ih =>
    intro n a hn
    rw [decCharsAux]
    by_cases h10 : n < 10
    · simp only [if_pos h10, List.foldl_cons, List.foldl_nil, List.length_singleton]
      rw [digitChar_val n h10]; ring
    · simp only [if_neg h10, List.foldl_append, List.foldl_cons, List.foldl_nil,
        List.length_append, List.length_singleton]
      rw [ih (n / 10) a (by omega), digitChar_val (n % 10) (Nat.mod_lt n (by omega))]
      have hmod := Nat.div_add_mod n 10
      ring_nf
      omega

theorem strVal_decChars (n : Nat) : strVal (decChars n) = n := by
  have h := decCharsAux_foldl (n + 1) n 0 (Nat.lt_succ_self n)
  simpa [strVal, decChars] using h

theorem foldl_replicate_zero :
    ∀ m, List.foldl (fun a c => 10 * a + (c.toNat - 48)) 0 (List.replicate m '0') = 0 := by
  intro m
  induction m with
  | zero => rfl
  | succ m ih => simpa [List.replicate_succ] using ih

theorem strVal_pad4 (n : Nat) : strVal (pad4 n) = n := by
  have h := strVal_decChars n
  simp only [pad4, strVal, List.foldl_append] at *
  rw [foldl_replicate_zero]
  exact h

theorem pad4_inj {n1 n2 : Nat} (h : pad4 n1 = pad4 n2) : n1 = n2 := by
  have := congrArg strVal h
  rwa [strVal_pad4, strVal_pad4] at this

theorem pad4_digits (n : Nat) : ∀ c ∈ pad4 n, c.isDigit := by
  intro c hc
  rcases List.mem_append.mp hc with h | h
  · rw [List.eq_of_mem_replicate h]; decide
  · exact decCharsAux_digits (n + 1) n (Nat.lt_succ_self n) c h

/-- Two digit runs followed by an underscore separator: equality of the
concatenations forces equality of the runs, because `'_'` is not a digit. -/
theorem digit_sep :
    ∀ (l1 l2 r1 r2 : List Char), (∀ c ∈ l1, c.isDigit) → (∀ c ∈ l2, c.isDigit) →
      l1 ++ '_' :: r1 = l2 ++ '_' :: r2 → l1 = l2 := by
  intro l1
  induction l1 with
  | nil =>
    intro l2 r1 r2 _ h2 heq
    cases l2 with
    | nil => rfl
    | cons c t =>
      exfalso
      simp only [List.nil_append, List.cons_append, List.cons.injEq] at heq
      have : ('_' : Char).isDigit := heq.1 ▸ h2 c (List.mem_cons_self c t)
      exact absurd this (by decide)
  | cons c t ih =>
    intro l2 r1 r2 h1 h2 heq
    cases l2 with
    | nil =>
      exfalso
      simp only [List.nil_append, List.cons_append, List.cons.injEq] at heq
      have : ('_' : Char).isDigit := heq.1 ▸ h1 c (List.mem_cons_self c t)
      exact absurd this (by decide)
    | cons c2 t2 =>
      simp only [List.cons_append, List.cons.injEq] at heq
      have := ih t2 r1 r2 (fun x hx => h1 x (List.mem_cons_of_mem c hx))
        (fun x hx => h2 x (List.mem_cons_of_mem c2 hx)) heq.2
      rw [heq.1, this]

/-! ### Sanitization and extension lemmas -/

theorem replaceSpace_no_space (l : List Char) : ∀ c ∈ replaceSpace l, c ≠ ' ' := by
  intro c hc
  simp only [replaceSpace, List.mem_map] at hc
  obtain ⟨x, _, hx⟩ := hc
  subst hx
  by_cases h : x == ' '
  · rw [if_pos h]; decide
  · rw [if_neg h]; simpa using h

theorem replaceSlash_no_slash (l : List Char) : ∀ c ∈ replaceSlash l, c ≠ '/' := by
  intro c hc
  simp only [replaceSlash, List.mem_map] at hc
  obtain ⟨x, _, hx⟩ := hc
  subst hx
  by_cases h : x == '/'
  · rw [if_pos h]; decide
  · rw [if_neg h]; simpa using h

theorem replaceSlash_keeps_no_space (l : List Char) (h : ∀ c ∈ l, c ≠ ' ') :
    ∀ c ∈ replaceSlash l, c ≠ ' ' := by
  intro c hc
  simp only [replaceSlash, List.mem_map] at hc
  obtain ⟨x, hxl, hx⟩ := hc
  subst hx
  by_cases hx : x == '/' <;> simp [hx]
  · exact h x hxl

/-- The sanitized title contains neither a space nor a slash. -/
theorem sanitized_clean (title : String) :
    ∀ c ∈ replaceSlash (replaceSpace title.data), c ≠ ' ' ∧ c ≠ '/' := by
  intro c hc
  exact ⟨replaceSlash_keeps_no_space _ (replaceSpace_no_space title.data) c hc,
    replaceSlash_no_slash _ c hc⟩

theorem extScan_no_slash :
    ∀ (l acc : List Char), (∀ c ∈ acc, c ≠ '/') → ∀ c ∈ extScan l acc, c ≠ '/' := by
  intro l
  induction l with
  | nil => intro acc _ c hc; simp [extScan] at hc
  | cons x rest ih =>
    intro acc hacc c hc
    rw [extScan] at hc
    by_cases hx : x == '/'
    · simp [hx] at hc
    · rw [if_neg hx] at hc
      by_cases hd : x == '.'
      · rw [if_pos hd] at hc
        by_cases hs : segNonDot rest
        · simp only [if_pos hs, List.mem_cons] at hc
          rcases hc with hc | hc
          · subst hc; decide
          · exact hacc c hc
        · simp [if_neg hs] at hc
      · rw [if_neg hd] at hc
        refine ih (x :: acc) ?_ c hc
        intro y hy
        rcases List.mem_cons.mp hy with hy | hy
        · subst hy; simpa using hx
        · exact hacc y hy

theorem fileExtensionOf_no_slash (url : String) : ∀ c ∈ fileExtensionOf url, c ≠ '/' := by
  intro c hc
  rw [fileExtensionOf] at hc
  by_cases he : (splitextExt (urlparsePath url)).isEmpty
  · simp only [if_pos he] at hc
    fin_cases hc <;> decide
  · simp only [if_neg he] at hc
    exact extScan_no_slash _ [] (by simp) c hc

theorem pad4_no_slash (n : Nat) : ∀ c ∈ pad4 n, c ≠ '/' := by
  intro c hc heq
  have := pad4_digits n c hc
  rw [heq] at this
  exact absurd this (by decide)

/-- The whole derived filename never contains a slash. -/
theorem mkFilename_no_slash (n : Nat) (title url : String) :
    ∀ c ∈ (mkFilename n title url).data, c ≠ '/' := by
  intro c hc
  simp only [mkFilename, List.append_assoc] at hc
  rcases List.mem_append.mp hc with h | h
  · exact pad4_no_slash n c h
  · rcases List.mem_cons.mp h with h | h
    · subst h; decide
    · rcases List.mem_append.mp h with h | h
      · exact (sanitized_clean title c h).2
      · exact fileExtensionOf_no_slash url c h

/-! ### Association-list filesystem lemma -/

theorem fsGet_fsSet (fs : Fs) (k : String) (v : FileContent) (q : String) :
    fsGet (fsSet fs k v) q = if k = q then some v else fsGet fs q := by
  induction fs with
  | nil => simp [fsSet, fsGet]
  | cons kv t ih =>
    obtain ⟨k0, w⟩ := kv
    by_cases h0 : k0 = k
    · subst h0
      simp only [fsSet, if_pos rfl, fsGet]
      by_cases hq : k0 = q
      · simp [hq]
      · simp [hq, fsGet]
    · simp only [fsSet, if_neg h0, fsGet]
      by_cases hq : k0 = q
      · subst hq
        simp only [if_pos rfl]
        exact (if_neg (fun h => h0 h.symm)).symm
      · simp [hq, ih]

/-! ### C4 -/

/-- C4, counterexample: the claim asserts the derived filename contains no
space, but an image URL whose path extension contains a space (legal in a
parsed URL, which is never percent-decoded) is copied verbatim into the
filename: comic 42, title `"Foo"`, URL `"https://x/img/foo.j pg"` yields
`"0042_Foo.j pg"`, which contains a space. -/
theorem c4_filename_space_counterexample :
    mkFilename 42 "Foo" "https://x/img/foo.j pg" = "0042_Foo.j pg" ∧
    ' ' ∈ (mkFilename 42 "Foo" "https://x/img/foo.j pg").data := by
  constructor
  · decide
  · decide

/-- C4 (amended): the derived filename is zero-pad(number, 4) ++ "_" ++
sanitize(title) ++ extension with the extension taken from the URL path
(default `.png` when the path has none); sanitize replaces every space and
slash of the title by `_`, so the sanitized title contains neither, and the
whole filename never contains a slash — but a space can survive inside an
extension copied from an unusual URL.  The end-to-end example holds:
42 / "Foo Bar" / "https://x/img/foo.jpg" gives "0042_Foo_Bar.jpg". -/
theorem c4_filename_derivation :
    (∀ (n : Nat) (title url : String),
      (∀ c ∈ replaceSlash (replaceSpace title.data), c ≠ ' ' ∧ c ≠ '/') ∧
      (∀ c ∈ (mkFilename n title url).data, c ≠ '/') ∧
      (splitextExt (urlparsePath url) = [] → fileExtensionOf url = ".png".data)) ∧
    mkFilename 42 "Foo Bar" "https://x/img/foo.jpg" = "0042_Foo_Bar.jpg" := by
  refine ⟨fun n title url => ⟨sanitized_clean title, mkFilename_no_slash n title url, ?_⟩, by decide⟩
  intro h
  rw [fileExtensionOf, h]
  rfl

/-- Witness for `c4_filename_derivation` at comic 7, title `"a b/c"`, an
extension-less URL. -/
theorem c4_filename_derivation_witness :
    (∀ c ∈ replaceSlash (replaceSpace ("a b/c" : String).data), c ≠ ' ' ∧ c ≠ '/') ∧
    (∀ c ∈ (mkFilename 7 "a b/c" "https://x/img/foo").data, c ≠ '/') ∧
    fileExtensionOf "https://x/img/foo" = ".png".data := by
  obtain ⟨h1, h2, h3⟩ := c4_filename_derivation.1 7 "a b/c" "https://x/img/foo"
  exact ⟨h1, h2, h3 (by decide)⟩

/-! ### C7 -/

/-- C7: filename derivation is injective across comic numbers — whatever the
titles and image URLs, two distinct numbers always derive distinct filenames.
The zero-padded number is a run of digits terminated by the `'_'` separator,
and no digit run can absorb the separator. -/
theorem c7_filename_injective (n1 n2 : Nat) (t1 t2 u1 u2 : String) (h : n1 ≠ n2) :
    mkFilename n1 t1 u1 ≠ mkFilename n2 t2 u2 := by
  intro heq
  apply h
  apply pad4_inj
  have hdata : pad4 n1 ++ '_' :: (replaceSlash (replaceSpace t1.data) ++ fileExtensionOf u1) =
      pad4 n2 ++ '_' :: (replaceSlash (replaceSpace t2.data) ++ fileExtensionOf u2) := by
    have := congrArg String.data heq
    simpa [mkFilename] using this
  exact digit_sep _ _ _ _ (pad4_digits n1) (pad4_digits n2) hdata

/-- Witness for `c7_filename_injective`: comics 123 and 1234 with adversarial
titles cannot collide. -/
theorem c7_filename_injective_witness :
    mkFilename 123 "4_x" "https://x/a.png" ≠ mkFilename 1234 "x" "https://x/a.png" :=
  c7_filename_injective 123 1234 "4_x" "x" "https://x/a.png" "https://x/a.png" (by decide)

/-! ### General lemmas about `crawl_comic` -/

/-- Every run of `crawl_comic` issues exactly one info request, for its own
comic number. -/
theorem comic_trace_infoReqs (env : Env) (fs : Fs) (n : Nat) :
    infoReqs (crawl_comic env fs n).2.1 = [n] := by
  cases h : env.info n
  case http404 => simp [crawl_comic, get_comic_info, h, infoReqs]
  case httpError e => simp [crawl_comic, get_comic_info, h, infoReqs]
  case exn e => simp [crawl_comic, get_comic_info, h, infoReqs]
  case ok d =>
    obtain ⟨img, st, al⟩ := d
    cases img
    case none => simp [crawl_comic, get_comic_info, h, infoReqs]
    case some u =>
      by_cases hu : u = ""
      · simp [crawl_comic, get_comic_info, h, hu, infoReqs]
      · by_cases hex : fsExists fs (mkFilename n (st.getD ("comic_" ++ toString n)) u)
        · simp [crawl_comic, get_comic_info, h, hu, hex, infoReqs]
        · cases hd : env.download u with
          | httpError e =>
            simp [crawl_comic, get_comic_info, download_image, h, hu, hex, hd, infoReqs]
          | stream chunks fa =>
            cases fa with
            | none =>
              cases hm : env.metaWriteErr n <;>
                simp [crawl_comic, get_comic_info, download_image, h, hu, hex, hd, hm, infoReqs]
            | some ke =>
              obtain ⟨k, e⟩ := ke
              simp [crawl_comic, get_comic_info, download_image, h, hu, hex, hd, infoReqs]

theorem infoReq_mem_of_infoReqs {ev : List Event} {n : Nat} (h : infoReqs ev = [n]) :
    Event.infoReq n ∈ ev := by
  have hn : n ∈ infoReqs ev := by rw [h]; exact List.mem_singleton_self n
  rw [infoReqs] at hn
  obtain ⟨e, he, hfe⟩ := List.mem_filterMap.mp hn
  cases e with
  | infoReq m => simp only [Option.some.injEq] at hfe; exact hfe ▸ he
  | latestReq => simp at hfe
  | imgReq u => simp at hfe
  | sleep => simp at hfe
  | log m => simp at hfe

/-- If the metadata write cannot raise for `n`, no exception escapes
`crawl_comic`: every outcome is an ordinary result dictionary. -/
theorem comic_ok_of_meta_none (env : Env) (fs : Fs) (n : Nat)
    (hm : env.metaWriteErr n = none) :
    ∃ r, (crawl_comic env fs n).2.2 = .ok r := by
  cases h : env.info n
  case http404 =>
    exact ⟨.failure n "Could not fetch comic info", by simp [crawl_comic, get_comic_info, h]⟩
  case httpError e =>
    exact ⟨.failure n "Could not fetch comic info", by simp [crawl_comic, get_comic_info, h]⟩
  case exn e =>
    exact ⟨.failure n "Could not fetch comic info", by simp [crawl_comic, get_comic_info, h]⟩
  case ok d =>
    obtain ⟨img, st, al⟩ := d
    cases img
    case none =>
      exact ⟨.failure n "No image URL found", by simp [crawl_comic, get_comic_info, h]⟩
    case some u =>
      by_cases hu : u = ""
      · exact ⟨.failure n "No image URL found", by simp [crawl_comic, get_comic_info, h, hu]⟩
      · by_cases hex : fsExists fs (mkFilename n (st.getD ("comic_" ++ toString n)) u)
        · exact ⟨.success n (mkFilename n (st.getD ("comic_" ++ toString n)) u)
            (st.getD ("comic_" ++ toString n)) (al.getD "") true,
            by simp [crawl_comic, get_comic_info, h, hu, hex]⟩
        · cases hd : env.download u with
          | httpError e =>
            exact ⟨.failure n "Failed to download image",
              by simp [crawl_comic, get_comic_info, download_image, h, hu, hex, hd]⟩
          | stream chunks fa =>
            cases fa with
            | none =>
              exact ⟨.success n (mkFilename n (st.getD ("comic_" ++ toString n)) u)
                (st.getD ("comic_" ++ toString n)) (al.getD "") false, by
                simp [crawl_comic, get_comic_info, download_image, h, hu, hex, hd, hm]⟩
            | some ke =>
              obtain ⟨k, e⟩ := ke
              exact ⟨.failure n "Failed to download image",
                by simp [crawl_comic, get_comic_info, download_image, h, hu, hex, hd]⟩

/-- The first two traced events of any `crawl_comic` run are the banner print
and the info request: the info request is issued before the existence check,
the download, and every other action. -/
theorem comic_trace_take2 (env : Env) (fs : Fs) (n : Nat) :
    (crawl_comic env fs n).2.1.take 2 =
      [.log ("Crawling comic " ++ toString n ++ "..."), .infoReq n] := by
  cases h : env.info n
  case http404 => simp [crawl_comic, get_comic_info, h]
  case httpError e => simp [crawl_comic, get_comic_info, h]
  case exn e => simp [crawl_comic, get_comic_info, h]
  case ok d =>
    obtain ⟨img, st, al⟩ := d
    cases img
    case none => simp [crawl_comic, get_comic_info, h]
    case some u =>
      by_cases hu : u = ""
      · simp [crawl_comic, get_comic_info, h, hu]
      · by_cases hex : fsExists fs (mkFilename n (st.getD ("comic_" ++ toString n)) u)
        · simp [crawl_comic, get_comic_info, h, hu, hex]
        · cases hd : env.download u with
          | httpError e =>
            simp [crawl_comic, get_comic_info, download_image, h, hu, hex, hd]
          | stream chunks fa =>
            cases fa with
            | none =>
              cases hm : env.metaWriteErr n <;>
                simp [crawl_comic, get_comic_info, download_image, h, hu, hex, hd, hm]
            | some ke =>
              obtain ⟨k, e⟩ := ke
              simp [crawl_comic, get_comic_info, download_image, h, hu, hex, hd]

/-- A skipped result can only come from the exists-branch: the info fetch
succeeded, and no image request appears in the trace. -/
theorem comic_skip_analysis (env : Env) (fs : Fs) (n m : Nat) (fn t a : String)
    (hres : (crawl_comic env fs n).2.2 = .ok (.success m fn t a true)) :
    (∃ d, env.info n = .ok d) ∧ ∀ u, Event.imgReq u ∉ (crawl_comic env fs n).2.1 := by
  cases h : env.info n
  case http404 => simp [crawl_comic, get_comic_info, h] at hres
  case httpError e => simp [crawl_comic, get_comic_info, h] at hres
  case exn e => simp [crawl_comic, get_comic_info, h] at hres
  case ok d =>
    obtain ⟨img, st, al⟩ := d
    cases img
    case none => simp [crawl_comic, get_comic_info, h] at hres
    case some u =>
      by_cases hu : u = ""
      · simp [crawl_comic, get_comic_info, h, hu] at hres
      · by_cases hex : fsExists fs (mkFilename n (st.getD ("comic_" ++ toString n)) u)
        · refine ⟨⟨_, rfl⟩, ?_⟩
          intro v
          simp [crawl_comic, get_comic_info, h, hu, hex]
        · cases hd : env.download u with
          | httpError e =>
            simp [crawl_comic, get_comic_info, download_image, h, hu, hex, hd] at hres
          | stream chunks fa =>
            cases fa with
            | none =>
              cases hm : env.metaWriteErr n <;>
                simp [crawl_comic, get_comic_info, download_image, h, hu, hex, hd, hm] at hres
            | some ke =>
              obtain ⟨k, e⟩ := ke
              simp [crawl_comic, get_comic_info, download_image, h, hu, hex, hd] at hres

/-- C5: crawling an item is idempotent — if a crawl of comic `n` returned a
success dictionary (skipped or not), crawling the same number again from the
resulting filesystem leaves every file byte-for-byte unchanged, reports
`skipped = true` with the same filename/title/alt text, and performs no
network download of the image (no `imgReq` event in the second trace). -/
theorem c5_crawl_idempotent (env : Env) (fs : Fs) (n : Nat) (fs1 : Fs) (ev1 : List Event)
    (m : Nat) (fn t a : String) (sk : Bool)
    (h : crawl_comic env fs n = (fs1, ev1, .ok (.success m fn t a sk))) :
    (crawl_comic env fs1 n).1 = fs1 ∧
    (crawl_comic env fs1 n).2.2 = .ok (.success n fn t a true) ∧
    ∀ u, Event.imgReq u ∉ (crawl_comic env fs1 n).2.1 := by
  cases hinfo : env.info n
  case http404 => simp [crawl_comic, get_comic_info, hinfo] at h
  case httpError e => simp [crawl_comic, get_comic_info, hinfo] at h
  case exn e => simp [crawl_comic, get_comic_info, hinfo] at h
  case ok d =>
    obtain ⟨img, st, al⟩ := d
    cases img
    case none => simp [crawl_comic, get_comic_info, hinfo] at h
    case some u =>
      by_cases hu : u = ""
      · simp [crawl_comic, get_comic_info, hinfo, hu] at h
      · by_cases hex : fsExists fs (mkFilename n (st.getD ("comic_" ++ toString n)) u)
        · simp only [crawl_comic, get_comic_info, hinfo, if_neg hu, hex, if_true,
            Prod.mk.injEq] at h
          obtain ⟨hfs, _, hres⟩ := h
          rw [Except.ok.injEq, CrawlResult.success.injEq] at hres
          obtain ⟨hnm, hfn, ht, ha, _⟩ := hres
          subst hfs
          subst hfn
          subst ht
          subst ha
          constructor
          · simp [crawl_comic, get_comic_info, hinfo, hu, hex]
          constructor
          · simp [crawl_comic, get_comic_info, hinfo, hu, hex]
          · intro v
            simp [crawl_comic, get_comic_info, hinfo, hu, hex]
        · cases hd : env.download u with
          | httpError e =>
            simp [crawl_comic, get_comic_info, download_image, hinfo, hu, hex, hd] at h
          | stream chunks fa =>
            cases fa with
            | none =>
              cases hm : env.metaWriteErr n with
              | some e =>
                simp [crawl_comic, get_comic_info, download_image, hinfo, hu, hex, hd, hm] at h
              | none =>
                simp only [crawl_comic, get_comic_info, download_image, hinfo, if_neg hu,
                  hex, hd, hm, Bool.false_eq_true, if_false, Prod.mk.injEq] at h
                obtain ⟨hfs, _, hres⟩ := h
                rw [Except.ok.injEq, CrawlResult.success.injEq] at hres
                obtain ⟨hnm, hfn, ht, ha, _⟩ := hres
                subst hfn
                subst ht
                subst ha
                have hex2 : fsExists fs1 (mkFilename n (st.getD ("comic_" ++ toString n)) u)
                    = true := by
                  rw [← hfs, fsExists, fsGet_fsSet]
                  by_cases hmd :
                      metadataFilename n = mkFilename n (st.getD ("comic_" ++ toString n)) u
                  · simp [hmd]
                  · simp [hmd, fsGet_fsSet]
                constructor
                · simp [crawl_comic, get_comic_info, hinfo, hu, hex2]
                constructor
                · simp [crawl_comic, get_comic_info, hinfo, hu, hex2]
                · intro v
                  simp [crawl_comic, get_comic_info, hinfo, hu, hex2]
            | some ke =>
              obtain ⟨k, e⟩ := ke
              simp [crawl_comic, get_comic_info, download_image, hinfo, hu, hex, hd] at h

/-! ### General lemmas about `crawl_loop` -/

theorem infoReqs_append (a b : List Event) : infoReqs (a ++ b) = infoReqs a ++ infoReqs b := by
  simp [infoReqs]

theorem infoReqs_failReport (r : CrawlResult) : infoReqs (failReport r) = [] := by
  cases r with
  | success n fn t a sk => simp [failReport, infoReqs]
  | failure n e => simp [failReport, infoReqs]

/-- Python truthiness: a cap of `0` (like `None`) never fires. -/
theorem capHit_zero (s : Nat) : capHit (some 0) s = false := by simp [capHit]

theorem capHit_none (s : Nat) : capHit none s = false := rfl

/-- `crawl_loop` behaves identically under `max_comics = Some 0` and
`max_comics = None`. -/
theorem loop_cap0 (env : Env) :
    ∀ (count : Nat) (fs : Fs) (n endNum s sk f : Nat),
      crawl_loop env fs n count endNum (some 0) s sk f =
        crawl_loop env fs n count endNum none s sk f := by
  intro count
  induction count with
  | zero => intro fs n endNum s sk f; rfl
  | succ c ih =>
    intro fs n endNum s sk f
    rw [crawl_loop, crawl_loop, capHit_zero]
    have hnone : capHit none s = false := rfl
    rw [hnone]
    simp only [Bool.false_eq_true, if_false]
    rcases hcc : crawl_comic env fs n with ⟨fs2, ev2, res⟩
    cases res with
    | error e => rfl
    | ok r => simp only [ih]

/-- With no cap and a metadata write that cannot raise, the loop finishes with
an ordinary summary and issues exactly one info request per number of the
range: failures never abort the iteration. -/
theorem loop_all (env : Env) (hmw : ∀ k, env.metaWriteErr k = none) :
    ∀ (count : Nat) (fs : Fs) (n endNum s sk f : Nat),
      (∃ sum, (crawl_loop env fs n count endNum none s sk f).2.2 = .ok sum) ∧
      infoReqs (crawl_loop env fs n count endNum none s sk f).2.1 = List.range' n count := by
  intro count
  induction count with
  | zero =>
    intro fs n endNum s sk f
    exact ⟨⟨⟨s, sk, f⟩, rfl⟩, by simp [crawl_loop, infoReqs]⟩
  | succ c ih =>
    intro fs n endNum s sk f
    have hnone : capHit none s = false := rfl
    obtain ⟨r0, hr0⟩ := comic_ok_of_meta_none env fs n (hmw n)
    rcases hcc : crawl_comic env fs n with ⟨fs2, ev2, res⟩
    rw [hcc] at hr0
    simp only at hr0
    subst hr0
    have htr : infoReqs ev2 = [n] := by
      have := comic_trace_infoReqs env fs n
      rw [hcc] at this
      exact this
    have hb := ih fs2 (n + 1) endNum
      (bumpCounts r0 s sk f).1 (bumpCounts r0 s sk f).2.1 (bumpCounts r0 s sk f).2.2
    rw [crawl_loop, hnone]
    simp only [Bool.false_eq_true, if_false, hcc]
    rcases hloop : crawl_loop env fs2 (n + 1) c endNum none
        (bumpCounts r0 s sk f).1 (bumpCounts r0 s sk f).2.1 (bumpCounts r0 s sk f).2.2
      with ⟨fs3, ev3, res3⟩
    rw [hloop] at hb
    obtain ⟨⟨sum, hsum⟩, hinfo⟩ := hb
    simp only at hsum hinfo
    constructor
    · exact ⟨sum, hsum⟩
    · simp only [infoReqs_append, htr, infoReqs_failReport, hinfo, List.range'_succ]
      have hsleep : infoReqs (if n < endNum then [Event.sleep] else []) = [] := by
        by_cases hlt : n < endNum
        · simp [hlt, infoReqs]
        · simp [hlt, infoReqs]
      rw [hsleep]
      simp

/-- When the cap pre-check fires, the loop stops before processing the next
number: no request is issued, the counters are final. -/
theorem loop_cap_stop (env : Env) (fs : Fs) (n count endNum : Nat) (m : Int)
    (s sk f : Nat) (h1 : m ≠ 0) (h2 : m ≤ (s : Int)) :
    crawl_loop env fs n (count + 1) endNum (some m) s sk f =
      (fs, [.log ("Reached maximum of " ++ toString m ++ " comics downloaded.")],
       .ok ⟨s, sk, f⟩) := by
  have hcap : capHit (some m) s = true := by
    simp [capHit, h1, h2]
  rw [crawl_loop, hcap]
  simp

/-! ### C1 -/

/-- C1, counterexample: with everything healthy except that the metadata write
for comic 1 raises (`ENOSPC`), the per-item persist error is *not* converted
into a Failed result: the exception escapes `crawl_comic`, aborts the whole
range crawl 1..2, and comic 2 is never requested. -/
theorem c1_metadata_error_counterexample :
    (crawl_comic envMetaFail [] 1).2.2 = .error "No space left on device" ∧
    (crawl_range envMetaFail [] 1 (some 2) none).2.2 = .error "No space left on device" ∧
    infoReqs (crawl_range envMetaFail [] 1 (some 2) none).2.1 = [1] := by
  refine ⟨by decide, by decide, by decide⟩

/-- C1 (amended): every per-item error in the info fetch, filename derivation,
existence check and image download (its file write included) is converted into
a Failed result at the item boundary, and the range crawl always continues to
the next number — provided the metadata persist does not raise.  The metadata
write (lines 161-163) is the one unguarded statement: an error there
propagates and aborts the range crawl. -/
theorem c1_item_errors_contained :
    (∀ (env : Env) (fs : Fs) (n : Nat), env.metaWriteErr n = none →
      ∃ r, (crawl_comic env fs n).2.2 = .ok r) ∧
    (∀ (env : Env) (fs : Fs) (start endNum : Nat), (∀ k, env.metaWriteErr k = none) →
      (∃ s, (crawl_range env fs start (some endNum) none).2.2 = .ok (some s)) ∧
      infoReqs (crawl_range env fs start (some endNum) none).2.1 =
        List.range' start (endNum + 1 - start)) := by
  constructor
  · exact fun env fs n h => comic_ok_of_meta_none env fs n h
  · intro env fs start endNum hmw
    have h := loop_all env hmw (endNum + 1 - start) fs start endNum 0 0 0
    rcases hl : crawl_loop env fs start (endNum + 1 - start) endNum none 0 0 0
      with ⟨fs2, ev2, res⟩
    rw [hl] at h
    obtain ⟨⟨sum, hsum⟩, hinfo⟩ := h
    simp only at hsum hinfo
    subst hsum
    exact ⟨⟨sum, by simp [crawl_range, hl, liftSummary]⟩, by simp [crawl_range, hl, hinfo]⟩

/-- Witness for `c1_item_errors_contained`: a crawl over 1..2 where every item
404s still ends with a summary and requested both numbers. -/
theorem c1_item_errors_contained_witness :
    (∃ r, (crawl_comic env404 [] 3).2.2 = .ok r) ∧
    (∃ s, (crawl_range env404 [] 1 (some 2) none).2.2 = .ok (some s)) ∧
    infoReqs (crawl_range env404 [] 1 (some 2) none).2.1 = List.range' 1 (2 + 1 - 1) := by
  refine ⟨c1_item_errors_contained.1 env404 [] 3 rfl, ?_, ?_⟩
  · exact (c1_item_errors_contained.2 env404 [] 1 2 (fun _ => rfl)).1
  · exact (c1_item_errors_contained.2 env404 [] 1 2 (fun _ => rfl)).2

/-! ### C2 -/

/-- C2, counterexample: with a stream of two chunks `[1,2]` and `[3,4]` that
raises after the first chunk was written, processing comic 1 reports Failed
but leaves `0001_T.png` on disk holding `[1,2]` — neither the complete
intended contents `[1,2,3,4]` nor absent. -/
theorem c2_partial_download_counterexample :
    fsGet (crawl_comic envPartial [] 1).1 "0001_T.png" = some (.image [1, 2]) ∧
    (FileContent.image [1, 2] ≠ FileContent.image [1, 2, 3, 4]) ∧
    (crawl_comic envPartial [] 1).2.2 = .ok (.failure 1 "Failed to download image") := by
  refine ⟨by decide, by decide, by decide⟩

/-- C2 (amended): each per-item file write is complete on success — a fully
successful item leaves the image file holding exactly the downloaded bytes and
the metadata file holding the full record — but it is not complete-or-absent
under failure: a download that fails after `k` chunks leaves the image file
holding exactly the prefix written so far while the item reports Failed. -/
theorem c2_write_complete_or_prefix :
    (∀ (env : Env) (fs : Fs) (n : Nat) (st al : Option String) (u : String)
        (chunks : List (List Nat)) (k : Nat) (e : String),
      env.info n = .ok ⟨some u, st, al⟩ → u ≠ "" →
      fsExists fs (mkFilename n (st.getD ("comic_" ++ toString n)) u) = false →
      env.download u = .stream chunks (some (k, e)) →
      (crawl_comic env fs n).1 =
        fsSet fs (mkFilename n (st.getD ("comic_" ++ toString n)) u)
          (.image (chunks.take k).flatten) ∧
      (crawl_comic env fs n).2.2 = .ok (.failure n "Failed to download image")) ∧
    (∀ (env : Env) (fs : Fs) (n : Nat) (st al : Option String) (u : String)
        (chunks : List (List Nat)),
      env.info n = .ok ⟨some u, st, al⟩ → u ≠ "" →
      fsExists fs (mkFilename n (st.getD ("comic_" ++ toString n)) u) = false →
      env.download u = .stream chunks none → env.metaWriteErr n = none →
      (crawl_comic env fs n).1 =
        fsSet (fsSet fs (mkFilename n (st.getD ("comic_" ++ toString n)) u)
            (.image chunks.flatten))
          (metadataFilename n)
          (.metadata ⟨n, st.getD ("comic_" ++ toString n), al.getD "", u,
            mkFilename n (st.getD ("comic_" ++ toString n)) u⟩)) := by
  constructor
  · intro env fs n st al u chunks k e hinfo hu hex hd
    constructor
    · simp [crawl_comic, get_comic_info, download_image, hinfo, hu, hex, hd]
    · simp [crawl_comic, get_comic_info, download_image, hinfo, hu, hex, hd]
  · intro env fs n st al u chunks hinfo hu hex hd hm
    simp [crawl_comic, get_comic_info, download_image, hinfo, hu, hex, hd, hm]

/-- Witness for `c2_write_complete_or_prefix` at `envPartial` (failing stream)
and `envOk` (clean download). -/
theorem c2_write_complete_or_prefix_witness :
    ((crawl_comic envPartial [] 1).1 =
        fsSet [] "0001_T.png" (.image ([[1, 2], [3, 4]].take 1).flatten) ∧
      (crawl_comic envPartial [] 1).2.2 = .ok (.failure 1 "Failed to download image")) ∧
    (crawl_comic envOk [] 1).1 =
      fsSet (fsSet [] "0001_T.png" (.image [[7]].flatten)) (metadataFilename 1)
        (.metadata ⟨1, "T", "A", "https://x/img/1.png", "0001_T.png"⟩) := by
  constructor
  · have h := c2_write_complete_or_prefix.1 envPartial [] 1 (some "T") (some "A")
      "https://x/a.png" [[1, 2], [3, 4]] 1 "IncompleteRead" rfl (by decide) rfl rfl
    constructor
    · have h1 := h.1
      rw [h1]
      decide
    · exact h.2
  · have h := c2_write_complete_or_prefix.2 envOk [] 1 (some "T") (some "A")
      "https://x/img/1.png" [[7]] rfl (by decide) rfl rfl rfl
    rw [h]
    decide

/-! ### C3 -/

/-- C3, counterexample: a 404 on the info fetch and a network timeout produce
Failed results with the *same* reason string, `"Could not fetch comic info"` —
the result dictionaries are not distinct (only the printed log line differs). -/
theorem c3_same_reason_counterexample :
    (crawl_comic env404 [] 7).2.2 = .ok (.failure 7 "Could not fetch comic info") ∧
    (crawl_comic envTimeout [] 7).2.2 = .ok (.failure 7 "Could not fetch comic info") := by
  refine ⟨by decide, by decide⟩

/-- C3 (amended): a 404 for item `N` and a transport/timeout error both yield a
Failed result with the identical reason `"Could not fetch comic info"`; the 404
is distinguished only in the logged output (`"Comic N not found (404)"` versus
`"Error getting comic N info: ..."`); in either case the range crawl proceeds
to item `N + 1`. -/
theorem c3_notfound_vs_transport :
    (∀ (env : Env) (fs : Fs) (n : Nat), env.info n = .http404 →
      (crawl_comic env fs n).2.2 = .ok (.failure n "Could not fetch comic info") ∧
      Event.log ("Comic " ++ toString n ++ " not found (404)") ∈ (crawl_comic env fs n).2.1) ∧
    (∀ (env : Env) (fs : Fs) (n : Nat) (e : String), env.info n = .exn e →
      (crawl_comic env fs n).2.2 = .ok (.failure n "Could not fetch comic info") ∧
      Event.log ("Error getting comic " ++ toString n ++ " info: " ++ e)
        ∈ (crawl_comic env fs n).2.1) ∧
    (∀ (env : Env) (fs : Fs) (n : Nat), env.info n = .http404 →
      Event.infoReq (n + 1) ∈ (crawl_range env fs n (some (n + 1)) none).2.1) := by
  refine ⟨?_, ?_, ?_⟩
  · intro env fs n h
    constructor
    · simp [crawl_comic, get_comic_info, h]
    · simp [crawl_comic, get_comic_info, h]
  · intro env fs n e h
    constructor
    · simp [crawl_comic, get_comic_info, h]
    · simp [crawl_comic, get_comic_info, h]
  · intro env fs n h
    have hcount : n + 1 + 1 - n = 2 := by omega
    have hcc : crawl_comic env fs n =
        (fs, [.log ("Crawling comic " ++ toString n ++ "..."), .infoReq n,
              .log ("Comic " ++ toString n ++ " not found (404)")],
         .ok (.failure n "Could not fetch comic info")) := by
      simp [crawl_comic, get_comic_info, h]
    rcases hcc2 : crawl_comic env fs (n + 1) with ⟨fs2, ev2, res2⟩
    have hmem : Event.infoReq (n + 1) ∈ ev2 := by
      have := comic_trace_infoReqs env fs (n + 1)
      rw [hcc2] at this
      exact infoReq_mem_of_infoReqs this
    rw [crawl_range, hcount, crawl_loop]
    simp only [capHit_none, Bool.false_eq_true, if_false, hcc, hcc2]
    cases res2 with
    | error e =>
      rw [crawl_loop]
      simp only [capHit_none, Bool.false_eq_true, if_false, hcc2]
      simp [hmem]
    | ok r =>
      rw [crawl_loop]
      simp only [capHit_none, Bool.false_eq_true, if_false, hcc2]
      simp [hmem]

/-- Witness for `c3_notfound_vs_transport` at comic 7. -/
theorem c3_notfound_vs_transport_witness :
    ((crawl_comic env404 [] 7).2.2 = .ok (.failure 7 "Could not fetch comic info") ∧
      Event.log ("Comic " ++ toString 7 ++ " not found (404)")
        ∈ (crawl_comic env404 [] 7).2.1) ∧
    ((crawl_comic envTimeout [] 7).2.2 = .ok (.failure 7 "Could not fetch comic info") ∧
      Event.log ("Error getting comic " ++ toString 7 ++ " info: " ++ "Connection timed out")
        ∈ (crawl_comic envTimeout [] 7).2.1) ∧
    Event.infoReq (7 + 1) ∈ (crawl_range env404 [] 7 (some (7 + 1)) none).2.1 := by
  exact ⟨c3_notfound_vs_transport.1 env404 [] 7 rfl,
    c3_notfound_vs_transport.2.1 envTimeout [] 7 "Connection timed out" rfl,
    c3_notfound_vs_transport.2.2 env404 [] 7 rfl⟩

/-- Witness for `c5_crawl_idempotent`: after a clean first crawl of comic 1,
the second crawl leaves the filesystem unchanged, reports skipped, and issues
no image request. -/
theorem c5_crawl_idempotent_witness :
    (crawl_comic envOk (crawl_comic envOk [] 1).1 1).1 = (crawl_comic envOk [] 1).1 ∧
    (crawl_comic envOk (crawl_comic envOk [] 1).1 1).2.2 =
      .ok (.success 1 "0001_T.png" "T" "A" true) ∧
    Event.imgReq "https://x/img/1.png" ∉ (crawl_comic envOk (crawl_comic envOk [] 1).1 1).2.1 := by
  have h := c5_crawl_idempotent envOk [] 1 (crawl_comic envOk [] 1).1
    [.log "Crawling comic 1...", .infoReq 1, .imgReq "https://x/img/1.png",
     .log "  Downloaded: 0001_T.png"]
    1 "0001_T.png" "T" "A" false (by decide)
  exact ⟨h.1, h.2.1, h.2.2 "https://x/img/1.png"⟩

/-! ### C6 -/

/-- C6: the `maxComics` cap counts only non-skipped successful downloads, and
is a pre-check before each next number.  Concretely: with cap 3 over the range
1..10 and every item a fresh success, exactly comics 1, 2, 3 are requested and
the run reports 3 successes; with cap 3 over 1..5 and every item already on
disk, all five numbers are requested (skips never trip the cap) and the run
reports 5 skips.  In general, as soon as the non-skipped success counter has
reached a set cap, the loop stops before processing the next number, issuing
no further request. -/
theorem c6_cap_behavior :
    (infoReqs (crawl_range envOk [] 1 (some 10) (some 3)).2.1 = [1, 2, 3] ∧
      (crawl_range envOk [] 1 (some 10) (some 3)).2.2 = .ok (some ⟨3, 0, 0⟩)) ∧
    (infoReqs (crawl_range envOk fsPre 1 (some 5) (some 3)).2.1 = [1, 2, 3, 4, 5] ∧
      (crawl_range envOk fsPre 1 (some 5) (some 3)).2.2 = .ok (some ⟨0, 5, 0⟩)) ∧
    (∀ (env : Env) (fs : Fs) (n count endNum : Nat) (m : Int) (s sk f : Nat),
      m ≠ 0 → m ≤ (s : Int) →
      crawl_loop env fs n (count + 1) endNum (some m) s sk f =
        (fs, [.log ("Reached maximum of " ++ toString m ++ " comics downloaded.")],
         .ok ⟨s, sk, f⟩)) := by
  refine ⟨⟨by decide, by decide⟩, ⟨by decide, by decide⟩, ?_⟩
  intro env fs n count endNum m s sk f h1 h2
  exact loop_cap_stop env fs n count endNum m s sk f h1 h2

/-- Witness for `c6_cap_behavior`: the pre-check instantiated after three
successes with cap 3: the 4th number is never processed. -/
theorem c6_cap_behavior_witness :
    crawl_loop envOk [] 4 (0 + 1) 10 (some 3) 3 0 0 =
      ([], [.log ("Reached maximum of " ++ toString (3 : Int) ++ " comics downloaded.")],
       .ok ⟨3, 0, 0⟩) :=
  c6_cap_behavior.2.2 envOk [] 4 0 10 3 3 0 0 (by decide) (by decide)

/-! ### C8 -/

/-- C8, counterexample: the claim promises "no cap interaction" for a
single-point range, but a negative cap (`--max -1`) is truthy in Python and
`0 >= -1` holds, so the pre-check fires before the very first item: the range
crawl start=end=5 issues no request and writes nothing, while single-item mode
on 5 requests and downloads comic 5. -/
theorem c8_negative_cap_counterexample :
    infoReqs (crawl_range envOk [] 5 (some 5) (some (-1))).2.1 = [] ∧
    (crawl_range envOk [] 5 (some 5) (some (-1))).1 = [] ∧
    infoReqs (crawl_comic envOk [] 5).2.1 = [5] ∧
    (crawl_comic envOk [] 5).1 ≠ [] := by
  refine ⟨by decide, by decide, by decide, by decide⟩

/-- C8 (amended): provided `maxComics` is unset, zero, or nonnegative (any
value a cap is meant to take), a range crawl with `start = end = n` performs
exactly one invocation of the per-item state machine on `n`: it produces the
same filesystem, the same per-item trace (plus only the failure-report line),
no sleep and no cap log, and a summary holding just that item's outcome — an
exception propagates identically.  A negative cap breaks the equivalence. -/
theorem c8_singleton_range_equiv (env : Env) (fs : Fs) (n : Nat) (cap : Option Int)
    (hcap : cap = none ∨ ∃ m, cap = some m ∧ 0 ≤ m) :
    crawl_range env fs n (some n) cap =
      ((crawl_comic env fs n).1,
       (crawl_comic env fs n).2.1 ++ failReportE (crawl_comic env fs n).2.2,
       liftItem (crawl_comic env fs n).2.2) := by
  have hcount : n + 1 - n = 1 := by omega
  have hcap0 : capHit cap 0 = false := by
    rcases hcap with rfl | ⟨m, rfl, hm⟩
    · rfl
    · by_cases hm0 : m = 0
      · simp [capHit, hm0]
      · simp only [capHit]
        have h0 : ¬(m ≤ ((0 : Nat) : Int)) := by omega
        simp [h0]
        omega
  rw [crawl_range, hcount, crawl_loop]
  simp only [hcap0, Bool.false_eq_true, if_false]
  rcases hcc : crawl_comic env fs n with ⟨fs2, ev2, res⟩
  cases res with
  | error e => simp [liftSummary, failReportE, liftItem]
  | ok r =>
    have hlt : ¬(n < n) := lt_irrefl n
    cases r with
    | success m fn t a sk =>
      cases sk <;>
        simp [crawl_loop, liftSummary, failReportE, liftItem, bumpCounts, failReport,
          countsOf, hlt]
    | failure m e =>
      simp [crawl_loop, liftSummary, failReportE, liftItem, bumpCounts, failReport,
        countsOf, hlt]

/-- Witness for `c8_singleton_range_equiv` at `envOk`, empty filesystem, no
cap. -/
theorem c8_singleton_range_equiv_witness :
    crawl_range envOk [] 5 (some 5) none =
      ((crawl_comic envOk [] 5).1,
       (crawl_comic envOk [] 5).2.1 ++ failReportE (crawl_comic envOk [] 5).2.2,
       liftItem (crawl_comic envOk [] 5).2.2) :=
  c8_singleton_range_equiv envOk [] 5 none (Or.inl rfl)

/-! ### C9 -/

/-- C9: the per-item operation always issues the info request first — the first
two traced events are the banner print and the info request, before the
existence check and everything else — and a skipped result is only ever
produced after a successful info fetch, in which case no image request occurs
at all: a skip avoids only the image download, never the per-item API call. -/
theorem c9_info_before_skip :
    (∀ (env : Env) (fs : Fs) (n : Nat),
      (crawl_comic env fs n).2.1.take 2 =
        [.log ("Crawling comic " ++ toString n ++ "..."), .infoReq n]) ∧
    (∀ (env : Env) (fs : Fs) (n m : Nat) (fn t a : String),
      (crawl_comic env fs n).2.2 = .ok (.success m fn t a true) →
      (∃ d, env.info n = .ok d) ∧ ∀ u, Event.imgReq u ∉ (crawl_comic env fs n).2.1) :=
  ⟨fun env fs n => comic_trace_take2 env fs n,
   fun env fs n m fn t a h => comic_skip_analysis env fs n m fn t a h⟩

/-- Witness for `c9_info_before_skip`: a skip of comic 1 (its image is already
in `fsPre`) still issued the info request, and made no image request. -/
theorem c9_info_before_skip_witness :
    (crawl_comic envOk fsPre 1).2.1.take 2 =
      [.log ("Crawling comic " ++ toString 1 ++ "..."), .infoReq 1] ∧
    (∃ d, envOk.info 1 = .ok d) ∧
    Event.imgReq "https://x/img/1.png" ∉ (crawl_comic envOk fsPre 1).2.1 := by
  have h2 := c9_info_before_skip.2 envOk fsPre 1 1 "0001_T.png" "T" "A" (by decide)
  exact ⟨c9_info_before_skip.1 envOk fsPre 1, h2.1, h2.2 "https://x/img/1.png"⟩

/-! ### C10 -/

/-- C10: `max_comics = 0` is falsy in Python, so a cap of 0 behaves exactly
like no cap at all: the range crawl is the very same computation, and (as long
as no metadata-write exception aborts it) it attempts every number from start
to end inclusive rather than stopping before the first item. -/
theorem c10_cap_zero_no_cap :
    (∀ (env : Env) (fs : Fs) (start endNum : Nat),
      crawl_range env fs start (some endNum) (some 0) =
        crawl_range env fs start (some endNum) none) ∧
    (∀ (env : Env) (fs : Fs) (start endNum : Nat), (∀ k, env.metaWriteErr k = none) →
      infoReqs (crawl_range env fs start (some endNum) (some 0)).2.1 =
        List.range' start (endNum + 1 - start)) := by
  have heq : ∀ (env : Env) (fs : Fs) (start endNum : Nat),
      crawl_range env fs start (some endNum) (some 0) =
        crawl_range env fs start (some endNum) none := by
    intro env fs start endNum
    simp only [crawl_range, loop_cap0]
  refine ⟨heq, ?_⟩
  intro env fs start endNum hmw
  rw [heq]
  have h := loop_all env hmw (endNum + 1 - start) fs start endNum 0 0 0
  rcases hl : crawl_loop env fs start (endNum + 1 - start) endNum none 0 0 0
    with ⟨fs2, ev2, res⟩
  rw [hl] at h
  simp only at h
  simp [crawl_range, hl, h.2]

/-- Witness for `c10_cap_zero_no_cap` over the range 2..4. -/
theorem c10_cap_zero_no_cap_witness :
    crawl_range envOk [] 2 (some 4) (some 0) = crawl_range envOk [] 2 (some 4) none ∧
    infoReqs (crawl_range envOk [] 2 (some 4) (some 0)).2.1 = List.range' 2 (4 + 1 - 2) :=
  ⟨c10_cap_zero_no_cap.1 envOk [] 2 4, c10_cap_zero_no_cap.2 envOk [] 2 4 (fun _ => rfl)⟩
